import Mathlib

/-!
Verification of the computational core of the currency-exchange agent
(`src/examples/currency_exchange_agent/src/{api.rs, monitor.rs}`).

Embedding conventions:
* Rust `f64` values are modelled as exact rationals (`ℚ`).  Where the Rust
  code can produce a non-finite float (a division whose denominator may be
  zero), the embedding makes the partiality explicit with `Option ℚ`:
  `none` stands for the IEEE-754 NaN/±Inf outcome.
* `std::collections::HashMap<String, f64>` is modelled as an association
  list `List (String × ℚ)`; a `HashMap` holds at most one entry per key, so
  theorems that need the uniqueness use a `Nodup` hypothesis on the keys.
* `chrono::DateTime<Utc>` timestamps are opaque to every claim; they are
  modelled as `ℕ` instants passed in by the caller (`Utc::now()` becomes a
  `now` parameter).
* `f64::sqrt` (used only for the Bollinger standard deviation) is
  irrational-valued, hence not representable in `ℚ`.  It is abstracted as a
  function parameter `sqrtFn : ℚ → ℚ`; every theorem below holds for every
  interpretation of that parameter, in particular the true square root.
-/

namespace CurrencyAgent

/-- A point-in-time forex quote (`api.rs`: `struct ForexQuote`). -/
structure ForexQuote where
  symbol : String
  bid : ℚ
  ask : ℚ
  price : ℚ
  timestamp : ℕ
  change : ℚ
  change_percent : ℚ
  volume : Option ℚ
  deriving Repr, DecidableEq

/-- One OHLC observation (`api.rs`: `struct OHLCData`).  The Rust field
`open` is a Lean keyword and is rendered `op`. -/
structure OHLCData where
  timestamp : ℕ
  op : ℚ
  high : ℚ
  low : ℚ
  close : ℚ
  volume : ℚ
  deriving Repr, DecidableEq

/-- `api.rs`: `struct MACDData`. -/
structure MACDData where
  macd : ℚ
  signal : ℚ
  histogram : ℚ
  deriving Repr, DecidableEq

/-- `api.rs`: `struct BollingerBands`. -/
structure BollingerBands where
  upper : ℚ
  middle : ℚ
  lower : ℚ
  deriving Repr, DecidableEq

/-- `api.rs`: `struct MovingAverages`. -/
structure MovingAverages where
  sma_20 : ℚ
  sma_50 : ℚ
  ema_12 : ℚ
  ema_26 : ℚ
  deriving Repr, DecidableEq

/-- `api.rs`: `struct StochasticData`.  The Rust fields are `f64`; the
stochastic %K is computed by an unguarded division, so the embedding uses
`Option ℚ` with `none` standing for the NaN/Inf float the division by zero
produces. -/
structure StochasticData where
  k : Option ℚ
  d : Option ℚ
  deriving Repr, DecidableEq

/-- `api.rs`: `struct TechnicalIndicators`. -/
structure TechnicalIndicators where
  rsi : ℚ
  macd : MACDData
  bollinger_bands : BollingerBands
  moving_averages : MovingAverages
  stochastic : StochasticData
  deriving Repr, DecidableEq

/-- The one failure `calculate_technical_indicators` can return
(`api.rs` line 477: the `ToolCallError::RuntimeError("Insufficient data …")`
for series shorter than 50). -/
inductive FinError where
  | insufficientData
  deriving Repr, DecidableEq

/-- Division with IEEE-754 partiality made explicit: `none` is the
NaN/±Inf result a Rust `f64` division by zero produces. -/
def nanDiv (a b : ℚ) : Option ℚ :=
  if b = 0 then none else some (a / b)

/-- Models the external `ta` crate value `RelativeStrengthIndex::new(14)`
folded over the closes (`api.rs` lines 488-492): a 14-period Wilder-style
running RSI whose exact output value is not observed by any claim; only
that it is a total rational-valued function matters here.  The loop seeds
`rsi_value = 50.0`, so the empty-series value is 50. -/
def rsiFinal (closes : List ℚ) : ℚ :=
  match closes with
  | [] => 50
  | c :: rest =>
    let st := rest.foldl
      (fun (s : ℚ × ℚ × ℚ) c =>
        let gain := max (c - s.1) 0
        let loss := max (s.1 - c) 0
        (c, (s.2.1 * 13 + gain) / 14, (s.2.2 * 13 + loss) / 14))
      (c, 0, 0)
    if st.2.1 + st.2.2 = 0 then 50 else 100 * st.2.1 / (st.2.1 + st.2.2)

/-- Exponential moving average fold (`api.rs` lines 499-507):
`ema = alpha * close + (1 - alpha) * ema` over the tail of the closes. -/
def emaFold (alpha seed : ℚ) (rest : List ℚ) : ℚ :=
  rest.foldl (fun e c => alpha * c + (1 - alpha) * e) seed

/-- `fold(f64::INFINITY, f64::min)` over a list (`api.rs` lines 528-531):
`none` plays the role of the `f64::INFINITY` seed, so the result is `none`
exactly on the empty list. -/
def foldMinFromInf (l : List ℚ) : Option ℚ :=
  l.foldl (fun acc x => some (match acc with | none => x | some a => min a x)) none

/-- `FinancialDataClient::calculate_technical_indicators`
(`api.rs` lines 473-558), with `f64::sqrt` abstracted as `sqrtFn`. -/
def calculate_technical_indicators (sqrtFn : ℚ → ℚ) (ohlc_data : List OHLCData) :
    Except FinError TechnicalIndicators :=
  if ohlc_data.length < 50 then
    .error .insufficientData
  else
    let closes := ohlc_data.map (·.close)
    -- RSI (14 period), final value of the running indicator
    let rsi_value := rsiFinal closes
    -- Moving averages: trailing means over the reversed closes
    let sma_20 := (closes.reverse.take 20).sum / 20
    let sma_50 := (closes.reverse.take 50).sum / 50
    -- EMA: seeded with closes[0] (non-empty under the length guard), folded
    -- over closes[1..]
    let ema_12 := emaFold (2 / 13) (closes.headD 0) closes.tail
    let ema_26 := emaFold (2 / 27) (closes.headD 0) closes.tail
    -- MACD (signal line simplified to the MACD line itself)
    let macd_line := ema_12 - ema_26
    let signal_line := macd_line
    let histogram := macd_line - signal_line
    -- Bollinger bands (20 period, 2 std dev)
    let mean := sma_20
    let variance := ((closes.reverse.take 20).map (fun x => (x - mean) ^ 2)).sum / 20
    let std_dev := sqrtFn variance
    -- Stochastic (14 period): `ohlc_data[len.saturating_sub(14)..]`
    let recent_data := ohlc_data.drop (ohlc_data.length - 14)
    let highest_high := (recent_data.map (·.high)).foldl max 0
    let lowest_low := foldMinFromInf (recent_data.map (·.low))
    let current_close := closes.getD (closes.length - 1) 0
    let k_percent :=
      match lowest_low with
      | none => none
      | some ll => (nanDiv (current_close - ll) (highest_high - ll)).map (· * 100)
    .ok
      { rsi := rsi_value
        macd := { macd := macd_line, signal := signal_line, histogram := histogram }
        bollinger_bands :=
          { upper := mean + 2 * std_dev, middle := mean, lower := mean - 2 * std_dev }
        moving_averages :=
          { sma_20 := sma_20, sma_50 := sma_50, ema_12 := ema_12, ema_26 := ema_26 }
        stochastic := { k := k_percent, d := k_percent } }

/-- `api.rs`: `enum SignalType`. -/
inductive SignalType where
  | buy
  | sell
  | hold
  | strongBuy
  | strongSell
  deriving Repr, DecidableEq

/-- `api.rs`: `struct TradingSignal`. -/
structure TradingSignal where
  signal_type : SignalType
  strength : ℚ
  confidence : ℚ
  entry_price : ℚ
  stop_loss : Option ℚ
  take_profit : Option ℚ
  reasoning : String
  timestamp : ℕ
  deriving Repr, DecidableEq

/-- The additive score accumulated in the mutable `signal_strength` of
`generate_trading_signal` (`api.rs` lines 566-603), written as a chain of
shadowing `let`s in the order the Rust code applies the contributions. -/
def signalScore (quote : ForexQuote) (ind : TechnicalIndicators) : ℚ :=
  let s : ℚ := 0
  -- RSI analysis
  let s := if ind.rsi < 30 then s + 0.3 else if ind.rsi > 70 then s - 0.3 else s
  -- MACD analysis
  let s :=
    if ind.macd.macd > ind.macd.signal ∧ ind.macd.histogram > 0 then s + 0.25
    else if ind.macd.macd < ind.macd.signal ∧ ind.macd.histogram < 0 then s - 0.25
    else s
  -- Moving average analysis
  let s := if ind.moving_averages.ema_12 > ind.moving_averages.ema_26 then s + 0.2 else s - 0.2
  -- Bollinger bands analysis
  let s :=
    if quote.price ≤ ind.bollinger_bands.lower then s + 0.15
    else if quote.price ≥ ind.bollinger_bands.upper then s - 0.15
    else s
  s

/-- The `reasoning_parts` list accumulated alongside the score
(`api.rs` lines 567-603). -/
def signalReasoningParts (quote : ForexQuote) (ind : TechnicalIndicators) : List String :=
  (if ind.rsi < 30 then ["RSI indicates oversold condition (bullish)"]
   else if ind.rsi > 70 then ["RSI indicates overbought condition (bearish)"]
   else []) ++
  (if ind.macd.macd > ind.macd.signal ∧ ind.macd.histogram > 0 then ["MACD bullish crossover"]
   else if ind.macd.macd < ind.macd.signal ∧ ind.macd.histogram < 0 then
     ["MACD bearish crossover"]
   else []) ++
  (if ind.moving_averages.ema_12 > ind.moving_averages.ema_26 then
     ["Short-term EMA above long-term EMA (bullish trend)"]
   else ["Short-term EMA below long-term EMA (bearish trend)"]) ++
  (if quote.price ≤ ind.bollinger_bands.lower then
     ["Price at lower Bollinger Band (potential bounce)"]
   else if quote.price ≥ ind.bollinger_bands.upper then
     ["Price at upper Bollinger Band (potential reversal)"]
   else [])

/-- The `(signal_type, confidence)` pair chosen from the accumulated score
(`api.rs` lines 606-619). -/
def signalTypeAndConfidence (s : ℚ) : SignalType × ℚ :=
  if s > 0.6 then (.strongBuy, 0.8 + (s - 0.6) * 0.5)
  else if s > 0.3 then (.buy, 0.6 + (s - 0.3) * 0.67)
  else if s < -0.6 then (.strongSell, 0.8 + (|s| - 0.6) * 0.5)
  else if s < -0.3 then (.sell, 0.6 + (|s| - 0.3) * 0.67)
  else (.hold, 0.5)

/-- The `(stop_loss, take_profit)` pair chosen from the signal type
(`api.rs` lines 622-633). -/
def stopTakeProfit (signal_type : SignalType) (price atr : ℚ) : Option ℚ × Option ℚ :=
  match signal_type with
  | .buy | .strongBuy => (some (price - 2 * atr), some (price + 3 * atr))
  | .sell | .strongSell => (some (price + 2 * atr), some (price - 3 * atr))
  | .hold => (none, none)

/-- `FinancialDataClient::generate_trading_signal` (`api.rs` lines 561-645);
`Utc::now()` is the `now` parameter. -/
def generate_trading_signal (quote : ForexQuote) (ind : TechnicalIndicators) (now : ℕ) :
    TradingSignal :=
  let s := signalScore quote ind
  let tc := signalTypeAndConfidence s
  let atr_estimate := (quote.ask - quote.bid) * 10
  let st := stopTakeProfit tc.1 quote.price atr_estimate
  { signal_type := tc.1
    strength := min |s| 1
    confidence := min tc.2 1
    entry_price := quote.price
    stop_loss := st.1
    take_profit := st.2
    reasoning := String.intercalate "; " (signalReasoningParts quote ind)
    timestamp := now }

/-- `monitor.rs`: `struct Portfolio`.  The `HashMap<String, f64>` of
holdings is modelled as an association list; a `HashMap` holds at most one
entry per key, and all lookups/updates below act on the first matching
entry, which coincides with map semantics under that invariant. -/
structure Portfolio where
  holdings : List (String × ℚ)
  initial_investment : ℚ
  initial_currency : String
  created_at : ℕ
  last_updated : ℕ
  total_transactions : ℕ
  deriving Repr, DecidableEq

/-- `monitor.rs`: `struct RateSnapshot`. -/
structure RateSnapshot where
  timestamp : ℕ
  rates : List (String × ℚ)
  base_currency : String
  deriving Repr, DecidableEq

/-- `monitor.rs`: `struct RateChange`. -/
structure RateChange where
  currency_pair : String
  old_rate : ℚ
  new_rate : ℚ
  change_percent : ℚ
  change_absolute : ℚ
  timestamp : ℕ
  deriving Repr, DecidableEq

/-- `monitor.rs`: `struct TradingRecommendation`. -/
structure TradingRecommendation where
  action : String
  from_currency : String
  to_currency : String
  amount : ℚ
  expected_profit : ℚ
  confidence : ℚ
  reasoning : String
  risk_level : String
  timestamp : ℕ
  deriving Repr, DecidableEq

/-- `monitor.rs`: `struct MonitoringConfig`. -/
structure MonitoringConfig where
  monitoring_interval_seconds : ℕ
  significant_change_threshold : ℚ
  monitored_pairs : List String
  max_risk_per_trade : ℚ
  stop_loss_threshold : ℚ
  take_profit_threshold : ℚ
  deriving Repr, DecidableEq

/-- `HashMap::get`: value of the first entry with the given key. -/
def hmGet (m : List (String × ℚ)) (k : String) : Option ℚ :=
  match m with
  | [] => none
  | (k2, v) :: rest => if k2 = k then some v else hmGet rest k

/-- `HashMap` write through `get_mut`: replace the value of the first
entry with the given key (no-op when the key is absent). -/
def hmSet (m : List (String × ℚ)) (k : String) (v : ℚ) : List (String × ℚ) :=
  match m with
  | [] => []
  | (k2, v2) :: rest => if k2 = k then (k2, v) :: rest else (k2, v2) :: hmSet rest k v

/-- `*map.entry(k).or_insert(0.0) += d`: add `d` to the entry's value,
inserting the entry at 0 first when the key is absent. -/
def hmAddTo (m : List (String × ℚ)) (k : String) (d : ℚ) : List (String × ℚ) :=
  match m with
  | [] => [(k, d)]
  | (k2, v2) :: rest => if k2 = k then (k2, v2 + d) :: rest else (k2, v2) :: hmAddTo rest k d

/-- `CurrencyMonitor::execute_recommendation` (`monitor.rs` lines 379-453),
restricted to its effect on the portfolio (console printing elided).  The
outcome of the `get_forex_quote` call for the recommendation's pair is
passed in as `quote_result` (`.error` models a failed fetch), and
`Utc::now()` is the `now` parameter.  On a successful fetch the trade is
executed only when the funding balance covers the amount; otherwise, and
when the funding currency is absent or the fetch failed, the portfolio is
returned untouched. -/
def execute_recommendation (p : Portfolio) (r : TradingRecommendation)
    (quote_result : Except Unit ForexQuote) (now : ℕ) : Portfolio :=
  match quote_result with
  | .error _ => p
  | .ok quote =>
    let amount_to := r.amount * quote.price
    match hmGet p.holdings r.from_currency with
    | none => p
    | some from_balance =>
      if from_balance ≥ r.amount then
        let h1 := hmSet p.holdings r.from_currency (from_balance - r.amount)
        let h2 := hmAddTo h1 r.to_currency amount_to
        { p with
            holdings := h2
            total_transactions := p.total_transactions + 1
            last_updated := now }
      else p

/-- The body of the `for (pair, new_rate) in &new.rates` loop of
`CurrencyMonitor::detect_significant_changes` (`monitor.rs` lines 255-271),
iterated over the new snapshot's entries.  The f64 division
`change_absolute / old_rate` goes through `nanDiv` (the file's convention
for a possibly-zero denominator).  When `old_rate ≠ 0` the percentage is
exact and the Rust test `change_percent.abs() >= threshold` is mirrored
directly.  When `old_rate = 0` the f64 percentage is non-finite and the
Rust test is decided by IEEE-754 comparison semantics: with
`change_absolute = 0` it is NaN and `NaN >= threshold` is false, so the
pair is dropped; otherwise it is ±Inf and `|±Inf| >= threshold` is true,
so the pair is reported.  The struct reported in that last case carries a
non-finite f64 `change_percent` that ℚ cannot represent; like `f64::sqrt`
it is abstracted as the parameter `infPercent` (applied to the nonzero
`change_absolute`, whose sign is the sign of the infinity), and every
theorem below holds for every interpretation of that parameter. -/
def detectLoop (infPercent : ℚ → ℚ) (threshold : ℚ) (oldRates : List (String × ℚ))
    (ts : ℕ) : List (String × ℚ) → List RateChange
  | [] => []
  | (pair, new_rate) :: rest =>
    (match hmGet oldRates pair with
     | some old_rate =>
       let change_absolute := new_rate - old_rate
       match nanDiv change_absolute old_rate with
       | some q =>
         let change_percent := q * 100
         if |change_percent| ≥ threshold then
           [{ currency_pair := pair, old_rate := old_rate, new_rate := new_rate,
              change_percent := change_percent, change_absolute := change_absolute,
              timestamp := ts }]
         else []
       | none =>
         if change_absolute = 0 then []
         else
           [{ currency_pair := pair, old_rate := old_rate, new_rate := new_rate,
              change_percent := infPercent change_absolute,
              change_absolute := change_absolute, timestamp := ts }]
     | none => []) ++ detectLoop infPercent threshold oldRates ts rest

/-- `CurrencyMonitor::detect_significant_changes` (`monitor.rs` lines
248-274): pairs present in both snapshots whose absolute percentage change
reaches the configured threshold (with the `old_rate = 0` non-finite cases
decided as in `detectLoop`). -/
def detect_significant_changes (infPercent : ℚ → ℚ) (cfg : MonitoringConfig)
    (oldS newS : RateSnapshot) : List RateChange :=
  detectLoop infPercent cfg.significant_change_threshold oldS.rates newS.timestamp
    newS.rates

/-- Structural embedding of Rust `str::split('/')` over the string's
character list (`change.currency_pair.split('/')` in `monitor.rs` lines
340-345; Lean's own position-based `String.splitOn` does not reduce). -/
def splitCharAux (c : Char) : List Char → List Char → List (List Char)
  | [], acc => [acc.reverse]
  | x :: xs, acc =>
    if x = c then acc.reverse :: splitCharAux c xs []
    else splitCharAux c xs (x :: acc)

/-- Split a string at every occurrence of the character `c`. -/
def splitChar (c : Char) (s : String) : List String :=
  (splitCharAux c s.data []).map String.mk

/-- The body of the `for change in changes` loop of
`CurrencyMonitor::generate_trading_recommendations` (`monitor.rs` lines
327-374): zero or one recommendation per rate change.  `analysis` is the
sentiment string produced by `analyze_market_changes`; the `{:+.2}`
numeric rendering inside the rationale string is elided (the rationale is
inspected by no claim).  Rust indexes `parts[0]`/`parts[1]` and would
panic on a pair without `'/'`; the embedding totalises that with
`getD _ ""`. -/
def recommendationForChange (holdings : List (String × ℚ)) (max_trade_amount : ℚ)
    (analysis : String) (now : ℕ) (change : RateChange) : List TradingRecommendation :=
  let acr : String × ℚ × String :=
    if change.change_percent ≤ -1 then ("BUY", 0.7, "MEDIUM")
    else if change.change_percent ≥ 1 then ("SELL", 0.7, "MEDIUM")
    else ("HOLD", 0.5, "LOW")
  if acr.1 ≠ "HOLD" then
    let parts := splitChar '/' change.currency_pair
    let ft : String × String :=
      if acr.1 = "BUY" then (parts.getD 1 "", parts.getD 0 "")
      else (parts.getD 0 "", parts.getD 1 "")
    match hmGet holdings ft.1 with
    | some available_amount =>
      let trade_amount := min available_amount max_trade_amount
      if trade_amount > 0.01 then
        [{ action := acr.1, from_currency := ft.1, to_currency := ft.2,
           amount := trade_amount,
           expected_profit := trade_amount * (|change.change_percent| / 100),
           confidence := acr.2.1,
           reasoning := "Rate change of " ++ "% detected. AI Analysis: "
             ++ String.mk (analysis.data.take 100),
           risk_level := acr.2.2, timestamp := now }]
      else []
    | none => []
  else []

/-- `CurrencyMonitor::generate_trading_recommendations` (`monitor.rs`
lines 317-377).  `portfolio_value` is the value the Rust code obtains from
`calculate_total_portfolio_value` (a sum over external quote fetches),
passed in by the caller; the `recommendations.push` loop is the fold. -/
def generate_trading_recommendations (portfolio : Portfolio) (portfolio_value : ℚ)
    (cfg : MonitoringConfig) (analysis : String) (now : ℕ)
    (changes : List RateChange) : List TradingRecommendation :=
  let max_trade_amount := portfolio_value * (cfg.max_risk_per_trade / 100)
  changes.foldl
    (fun recs c => recs ++ recommendationForChange portfolio.holdings max_trade_amount
      analysis now c) []

/-- Concrete input for the recommendation generator: a 2% drop of
USD/EUR. -/
def sampleChange : RateChange :=
  { currency_pair := "USD/EUR", old_rate := 1, new_rate := 0.98,
    change_percent := -2, change_absolute := -0.02, timestamp := 0 }

/-- Concrete portfolio holding 1000 EUR. -/
def samplePortfolio : Portfolio :=
  { holdings := [("EUR", 1000)], initial_investment := 1000,
    initial_currency := "EUR", created_at := 0, last_updated := 0,
    total_transactions := 0 }

/-- Concrete monitoring configuration with a 10% risk cap per trade. -/
def sampleConfig : MonitoringConfig :=
  { monitoring_interval_seconds := 60, significant_change_threshold := 0.5,
    monitored_pairs := [], max_risk_per_trade := 10,
    stop_loss_threshold := -2, take_profit_threshold := 3 }

/-- The recommendation `generate_trading_recommendations` produces for
`sampleChange` on `samplePortfolio` (value 1000) under `sampleConfig`. -/
def sampleRecommendation : TradingRecommendation :=
  { action := "BUY", from_currency := "EUR", to_currency := "USD",
    amount := 100, expected_profit := 100 * (|(-2 : ℚ)| / 100), confidence := 0.7,
    reasoning := "Rate change of " ++ "% detected. AI Analysis: "
      ++ String.mk (List.take 100 "".data),
    risk_level := "MEDIUM", timestamp := 0 }

/-- The history-retention step at the end of `monitoring_cycle`
(`monitor.rs` lines 205-211): push the new snapshot
(`rate_history.push`), then if the history now holds more than 100
snapshots remove the oldest (`rate_history.remove(0)`). -/
def historyStep (history : List RateSnapshot) (s : RateSnapshot) : List RateSnapshot :=
  let pushed := history ++ [s]
  if pushed.length > 100 then pushed.drop 1 else pushed

/-- C1: a series shorter than 50 points always yields the
`InsufficientData` error (and hence no indicator bundle), and a series of
length at least 50 never fails: `calculate_technical_indicators` returns a
bundle for it. -/
theorem C1_insufficient_data (sqrtFn : ℚ → ℚ) (ohlc_data : List OHLCData) :
    (ohlc_data.length < 50 →
      calculate_technical_indicators sqrtFn ohlc_data = .error .insufficientData) ∧
    (50 ≤ ohlc_data.length →
      ∃ b, calculate_technical_indicators sqrtFn ohlc_data = .ok b) := by
  constructor
  · intro h
    simp [calculate_technical_indicators, h]
  · intro h
    unfold calculate_technical_indicators
    rw [if_neg (Nat.not_lt.mpr h)]
    exact ⟨_, rfl⟩

/-- Concrete instantiation of `C1_insufficient_data`: a 3-point series is
rejected and a 50-point series is accepted. -/
theorem C1_insufficient_data_witness :
    (calculate_technical_indicators (fun _ => 0)
        (List.replicate 3 ⟨0, 1, 1, 1, 1, 0⟩) = .error .insufficientData) ∧
    (∃ b, calculate_technical_indicators (fun _ => 0)
        (List.replicate 50 ⟨0, 1, 1, 1, 1, 0⟩) = .ok b) :=
  ⟨(C1_insufficient_data (fun _ => 0) _).1 (by decide),
   (C1_insufficient_data (fun _ => 0) _).2 (by decide)⟩

lemma signalTypeAndConfidence_strongBuy {s : ℚ} (h : 0.6 < s) :
    signalTypeAndConfidence s = (.strongBuy, 0.8 + (s - 0.6) * 0.5) := by
  unfold signalTypeAndConfidence
  rw [if_pos h]

lemma signalTypeAndConfidence_buy {s : ℚ} (h1 : 0.3 < s) (h2 : s ≤ 0.6) :
    signalTypeAndConfidence s = (.buy, 0.6 + (s - 0.3) * 0.67) := by
  unfold signalTypeAndConfidence
  rw [if_neg (by push_neg; linarith), if_pos h1]

lemma signalTypeAndConfidence_strongSell {s : ℚ} (h : s < -0.6) :
    signalTypeAndConfidence s = (.strongSell, 0.8 + (|s| - 0.6) * 0.5) := by
  unfold signalTypeAndConfidence
  rw [if_neg (by push_neg; linarith), if_neg (by push_neg; linarith), if_pos h]

lemma signalTypeAndConfidence_sell {s : ℚ} (h1 : -0.6 ≤ s) (h2 : s < -0.3) :
    signalTypeAndConfidence s = (.sell, 0.6 + (|s| - 0.3) * 0.67) := by
  unfold signalTypeAndConfidence
  rw [if_neg (by push_neg; linarith), if_neg (by push_neg; linarith),
    if_neg (by push_neg; linarith), if_pos h2]

lemma signalTypeAndConfidence_hold {s : ℚ} (h1 : -0.3 ≤ s) (h2 : s ≤ 0.3) :
    signalTypeAndConfidence s = (.hold, 0.5) := by
  unfold signalTypeAndConfidence
  rw [if_neg (by push_neg; linarith), if_neg (by push_neg; linarith),
    if_neg (by push_neg; linarith), if_neg (by push_neg; linarith)]

/-- The confidence chosen by the branch table is always at least 0.5. -/
lemma signalTypeAndConfidence_snd_ge (s : ℚ) : 0.5 ≤ (signalTypeAndConfidence s).2 := by
  unfold signalTypeAndConfidence
  split_ifs with h1 h2 h3 h4
  · simp only
    linarith
  · simp only
    linarith
  · simp only
    have habs : 0.6 < |s| := by
      rw [abs_of_neg (by linarith : s < 0)]
      linarith
    linarith
  · simp only
    have habs : 0.3 < |s| := by
      rw [abs_of_neg (by linarith : s < 0)]
      linarith
    linarith
  · simp only
    linarith

/-- C4: the composite score is mapped to signal type and confidence exactly
as specified — StrongBuy above 0.6 with confidence `0.8 + (s−0.6)·0.5`, Buy
on (0.3, 0.6] with `0.6 + (s−0.3)·0.67`, the symmetric Sell/StrongSell
branches computed from `|s|`, Hold with 0.5 otherwise — the returned
confidence is clamped to at most 1, strength equals `min |s| 1`, and both
confidence and strength lie in [0, 1]. -/
theorem C4_score_threshold_mapping (quote : ForexQuote) (ind : TechnicalIndicators) (now : ℕ)
    (s : ℚ) (hs : s = signalScore quote ind)
    (sig : TradingSignal) (hsig : sig = generate_trading_signal quote ind now) :
    (0.6 < s → sig.signal_type = .strongBuy ∧
      sig.confidence = min (0.8 + (s - 0.6) * 0.5) 1) ∧
    (0.3 < s ∧ s ≤ 0.6 → sig.signal_type = .buy ∧
      sig.confidence = min (0.6 + (s - 0.3) * 0.67) 1) ∧
    (s < -0.6 → sig.signal_type = .strongSell ∧
      sig.confidence = min (0.8 + (|s| - 0.6) * 0.5) 1) ∧
    (-0.6 ≤ s ∧ s < -0.3 → sig.signal_type = .sell ∧
      sig.confidence = min (0.6 + (|s| - 0.3) * 0.67) 1) ∧
    (-0.3 ≤ s ∧ s ≤ 0.3 → sig.signal_type = .hold ∧ sig.confidence = 0.5) ∧
    sig.strength = min |s| 1 ∧
    0 ≤ sig.confidence ∧ sig.confidence ≤ 1 ∧ 0 ≤ sig.strength ∧ sig.strength ≤ 1 := by
  subst hs hsig
  have htype : (generate_trading_signal quote ind now).signal_type
      = (signalTypeAndConfidence (signalScore quote ind)).1 := rfl
  have hconf : (generate_trading_signal quote ind now).confidence
      = min (signalTypeAndConfidence (signalScore quote ind)).2 1 := rfl
  have hstr : (generate_trading_signal quote ind now).strength
      = min |signalScore quote ind| 1 := rfl
  refine ⟨?_, ?_, ?_, ?_, ?_, hstr, ?_, ?_, ?_, ?_⟩
  · intro h
    rw [htype, hconf, signalTypeAndConfidence_strongBuy h]
    exact ⟨rfl, rfl⟩
  · intro ⟨h1, h2⟩
    rw [htype, hconf, signalTypeAndConfidence_buy h1 h2]
    exact ⟨rfl, rfl⟩
  · intro h
    rw [htype, hconf, signalTypeAndConfidence_strongSell h]
    exact ⟨rfl, rfl⟩
  · intro ⟨h1, h2⟩
    rw [htype, hconf, signalTypeAndConfidence_sell h1 h2]
    exact ⟨rfl, rfl⟩
  · intro ⟨h1, h2⟩
    rw [htype, hconf, signalTypeAndConfidence_hold h1 h2]
    exact ⟨rfl, by norm_num⟩
  · rw [hconf]
    have := signalTypeAndConfidence_snd_ge (signalScore quote ind)
    exact le_min (by linarith) (by norm_num)
  · rw [hconf]
    exact min_le_right _ _
  · rw [hstr]
    exact le_min (abs_nonneg _) (by norm_num)
  · rw [hstr]
    exact min_le_right _ _

/-- Concrete instantiation of `C4_score_threshold_mapping`: a neutral
quote/indicator pair lands in the Hold branch with confidence 0.5. -/
theorem C4_score_threshold_mapping_witness :
    (generate_trading_signal ⟨"USD/EUR", 1, 1, 1, 0, 0, 0, none⟩
        ⟨50, ⟨0, 0, 0⟩, ⟨2, 1, 0⟩, ⟨1, 1, 1, 1⟩, ⟨none, none⟩⟩ 0).signal_type = .hold ∧
    (generate_trading_signal ⟨"USD/EUR", 1, 1, 1, 0, 0, 0, none⟩
        ⟨50, ⟨0, 0, 0⟩, ⟨2, 1, 0⟩, ⟨1, 1, 1, 1⟩, ⟨none, none⟩⟩ 0).confidence = 0.5 :=
  (C4_score_threshold_mapping ⟨"USD/EUR", 1, 1, 1, 0, 0, 0, none⟩
    ⟨50, ⟨0, 0, 0⟩, ⟨2, 1, 0⟩, ⟨1, 1, 1, 1⟩, ⟨none, none⟩⟩ 0 _ rfl _ rfl).2.2.2.2.1
    ⟨by norm_num [signalScore], by norm_num [signalScore]⟩

/-- C5: with the ATR proxy `(ask − bid) · 10`, Buy and StrongBuy signals
carry `stop_loss = price − 2·ATR` and `take_profit = price + 3·ATR`, Sell
and StrongSell carry the mirrored levels, Hold carries neither, and the two
levels are present exactly when the signal is not Hold. -/
theorem C5_stop_take_profit (quote : ForexQuote) (ind : TechnicalIndicators) (now : ℕ)
    (atr : ℚ) (hatr : atr = (quote.ask - quote.bid) * 10)
    (sig : TradingSignal) (hsig : sig = generate_trading_signal quote ind now) :
    (sig.signal_type = .buy ∨ sig.signal_type = .strongBuy →
      sig.stop_loss = some (quote.price - 2 * atr) ∧
      sig.take_profit = some (quote.price + 3 * atr)) ∧
    (sig.signal_type = .sell ∨ sig.signal_type = .strongSell →
      sig.stop_loss = some (quote.price + 2 * atr) ∧
      sig.take_profit = some (quote.price - 3 * atr)) ∧
    (sig.signal_type = .hold → sig.stop_loss = none ∧ sig.take_profit = none) ∧
    ((sig.stop_loss.isSome ∧ sig.take_profit.isSome) ↔ sig.signal_type ≠ .hold) := by
  subst hatr hsig
  have hstop : (generate_trading_signal quote ind now).stop_loss
      = (stopTakeProfit (generate_trading_signal quote ind now).signal_type quote.price
          ((quote.ask - quote.bid) * 10)).1 := rfl
  have htake : (generate_trading_signal quote ind now).take_profit
      = (stopTakeProfit (generate_trading_signal quote ind now).signal_type quote.price
          ((quote.ask - quote.bid) * 10)).2 := rfl
  rw [hstop, htake]
  cases h : (generate_trading_signal quote ind now).signal_type <;>
    simp [stopTakeProfit]

/-- Concrete instantiation of `C5_stop_take_profit`: the Hold branch of the
neutral input produces neither stop-loss nor take-profit. -/
theorem C5_stop_take_profit_witness :
    (generate_trading_signal ⟨"USD/EUR", 1, 1, 1, 0, 0, 0, none⟩
        ⟨50, ⟨0, 0, 0⟩, ⟨2, 1, 0⟩, ⟨1, 1, 1, 1⟩, ⟨none, none⟩⟩ 0).stop_loss = none ∧
    (generate_trading_signal ⟨"USD/EUR", 1, 1, 1, 0, 0, 0, none⟩
        ⟨50, ⟨0, 0, 0⟩, ⟨2, 1, 0⟩, ⟨1, 1, 1, 1⟩, ⟨none, none⟩⟩ 0).take_profit = none :=
  (C5_stop_take_profit ⟨"USD/EUR", 1, 1, 1, 0, 0, 0, none⟩
    ⟨50, ⟨0, 0, 0⟩, ⟨2, 1, 0⟩, ⟨1, 1, 1, 1⟩, ⟨none, none⟩⟩ 0 _ rfl _ rfl).2.2.1
    (by norm_num [generate_trading_signal, signalScore, signalTypeAndConfidence])

/-- C9: on a 50-point series whose trailing 14-point window is flat
(highest high = lowest low, here a constant series at price 1 with
strictly increasing timestamps) the stochastic %K division
`(close − lowest_low) / (highest_high − lowest_low)` has a zero
denominator and, unguarded, produces the IEEE-754 NaN/Inf value (modelled
as `none`) in both %K and %D of the returned bundle — not the defined
finite sentinel the specification requires. -/
theorem C9_flat_window_stochastic_not_finite :
    (calculate_technical_indicators (fun _ => 0)
        ((List.range 50).map (fun i => ⟨i, 1, 1, 1, 1, 0⟩))).map (·.stochastic)
      = .ok ⟨none, none⟩ := by
  norm_num [calculate_technical_indicators, foldMinFromInf, nanDiv, Except.map,
    List.range, List.range.loop, List.foldl]

/-- C10: every bundle produced by `calculate_technical_indicators` has
`macd.signal = macd.macd` and `macd.histogram = 0`; and on any bundle with
those two properties neither MACD scoring branch of
`generate_trading_signal` fires, so the composite score stays within
[−0.65, 0.65] and the returned strength never exceeds 0.65. -/
theorem C10_macd_branches_never_fire (sqrtFn : ℚ → ℚ) (ohlc_data : List OHLCData)
    (quote : ForexQuote) (ind : TechnicalIndicators) (now : ℕ) :
    (50 ≤ ohlc_data.length →
      ∃ b, calculate_technical_indicators sqrtFn ohlc_data = .ok b ∧
        b.macd.signal = b.macd.macd ∧ b.macd.histogram = 0) ∧
    (ind.macd.signal = ind.macd.macd → ind.macd.histogram = 0 →
      -0.65 ≤ signalScore quote ind ∧ signalScore quote ind ≤ 0.65 ∧
      (generate_trading_signal quote ind now).strength ≤ 0.65) := by
  constructor
  · intro h
    unfold calculate_technical_indicators
    rw [if_neg (Nat.not_lt.mpr h)]
    exact ⟨_, rfl, rfl, sub_self _⟩
  · intro hsig _
    have h1 : ¬(ind.macd.macd > ind.macd.signal ∧ ind.macd.histogram > 0) := by
      rintro ⟨a, -⟩
      rw [hsig] at a
      exact lt_irrefl _ a
    have h2 : ¬(ind.macd.macd < ind.macd.signal ∧ ind.macd.histogram < 0) := by
      rintro ⟨a, -⟩
      rw [hsig] at a
      exact lt_irrefl _ a
    have hb : -0.65 ≤ signalScore quote ind ∧ signalScore quote ind ≤ 0.65 := by
      simp only [signalScore]
      rw [if_neg h1, if_neg h2]
      split_ifs <;> norm_num
    refine ⟨hb.1, hb.2, ?_⟩
    have hstr : (generate_trading_signal quote ind now).strength
        = min |signalScore quote ind| 1 := rfl
    rw [hstr]
    exact le_trans (min_le_left _ _) (abs_le.mpr hb)

/-- Concrete instantiation of `C10_macd_branches_never_fire`: the bundle of
a constant 50-point series has a degenerate MACD, and a neutral input's
strength is at most 0.65. -/
theorem C10_macd_branches_never_fire_witness :
    (∃ b, calculate_technical_indicators (fun _ => 0)
        (List.replicate 50 ⟨0, 1, 1, 1, 1, 0⟩) = .ok b ∧
        b.macd.signal = b.macd.macd ∧ b.macd.histogram = 0) ∧
    (generate_trading_signal ⟨"USD/EUR", 1, 1, 1, 0, 0, 0, none⟩
        ⟨50, ⟨0, 0, 0⟩, ⟨2, 1, 0⟩, ⟨1, 1, 1, 1⟩, ⟨none, none⟩⟩ 0).strength ≤ 0.65 :=
  ⟨(C10_macd_branches_never_fire (fun _ => 0) (List.replicate 50 ⟨0, 1, 1, 1, 1, 0⟩)
      ⟨"USD/EUR", 1, 1, 1, 0, 0, 0, none⟩
      ⟨50, ⟨0, 0, 0⟩, ⟨2, 1, 0⟩, ⟨1, 1, 1, 1⟩, ⟨none, none⟩⟩ 0).1 (by simp),
   ((C10_macd_branches_never_fire (fun _ => 0) (List.replicate 50 ⟨0, 1, 1, 1, 1, 0⟩)
      ⟨"USD/EUR", 1, 1, 1, 0, 0, 0, none⟩
      ⟨50, ⟨0, 0, 0⟩, ⟨2, 1, 0⟩, ⟨1, 1, 1, 1⟩, ⟨none, none⟩⟩ 0).2 rfl rfl).2.2⟩

lemma hmSet_nonneg {m : List (String × ℚ)} {k : String} {v : ℚ}
    (h : ∀ x ∈ m, 0 ≤ x.2) (hv : 0 ≤ v) : ∀ x ∈ hmSet m k v, 0 ≤ x.2 := by
  induction m with
  | nil => intro x hx; cases hx
  | cons a rest ih =>
    intro x hx
    obtain ⟨k2, v2⟩ := a
    rw [hmSet] at hx
    split_ifs at hx with hk
    · rcases List.mem_cons.mp hx with rfl | hx
      · exact hv
      · exact h x (List.mem_cons_of_mem _ hx)
    · rcases List.mem_cons.mp hx with rfl | hx
      · exact h _ (List.mem_cons_self _ _)
      · exact ih (fun y hy => h y (List.mem_cons_of_mem _ hy)) x hx

lemma hmAddTo_nonneg {m : List (String × ℚ)} {k : String} {d : ℚ}
    (h : ∀ x ∈ m, 0 ≤ x.2) (hd : 0 ≤ d) : ∀ x ∈ hmAddTo m k d, 0 ≤ x.2 := by
  induction m with
  | nil =>
    intro x hx
    rw [hmAddTo] at hx
    rcases List.mem_singleton.mp hx with rfl
    exact hd
  | cons a rest ih =>
    intro x hx
    obtain ⟨k2, v2⟩ := a
    rw [hmAddTo] at hx
    split_ifs at hx with hk
    · rcases List.mem_cons.mp hx with rfl | hx
      · exact add_nonneg (h _ (List.mem_cons_self _ _)) hd
      · exact h x (List.mem_cons_of_mem _ hx)
    · rcases List.mem_cons.mp hx with rfl | hx
      · exact h _ (List.mem_cons_self _ _)
      · exact ih (fun y hy => h y (List.mem_cons_of_mem _ hy)) x hx

lemma hmGet_nonneg {m : List (String × ℚ)} {k : String} {v : ℚ}
    (h : ∀ x ∈ m, 0 ≤ x.2) (hg : hmGet m k = some v) : 0 ≤ v := by
  induction m with
  | nil => cases hg
  | cons a rest ih =>
    obtain ⟨k2, v2⟩ := a
    rw [hmGet] at hg
    split_ifs at hg with hk
    · cases hg
      exact h _ (List.mem_cons_self _ _)
    · exact ih (fun y hy => h y (List.mem_cons_of_mem _ hy)) hg

/-- C2: starting from a portfolio whose balances are all non-negative,
executing a recommendation with non-negative amount at a non-negative
quote price — whether the trade succeeds, is rejected for insufficient
balance or an absent funding currency, or the quote fetch fails — leaves
every balance in the portfolio non-negative. -/
theorem C2_balances_stay_nonnegative (p : Portfolio) (r : TradingRecommendation)
    (quote_result : Except Unit ForexQuote) (now : ℕ)
    (hbal : ∀ x ∈ p.holdings, 0 ≤ x.2)
    (hamt : 0 ≤ r.amount)
    (hprice : ∀ q, quote_result = .ok q → 0 ≤ q.price) :
    ∀ x ∈ (execute_recommendation p r quote_result now).holdings, 0 ≤ x.2 := by
  cases quote_result with
  | error e => exact hbal
  | ok q =>
    have hq : 0 ≤ q.price := hprice q rfl
    rw [execute_recommendation]
    rcases hg : hmGet p.holdings r.from_currency with _ | b
    · exact hbal
    · have hb : 0 ≤ b := hmGet_nonneg hbal hg
      dsimp only
      by_cases hge : b ≥ r.amount
      · rw [if_pos hge]
        exact hmAddTo_nonneg (hmSet_nonneg hbal (by linarith)) (mul_nonneg hamt hq)
      · rw [if_neg hge]
        exact hbal

/-- Concrete instantiation of `C2_balances_stay_nonnegative`: a
recommendation funded from an absent currency leaves the single positive
balance in place. -/
theorem C2_balances_stay_nonnegative_witness :
    0 ≤ (("USD", (1000 : ℚ)) : String × ℚ).2 :=
  C2_balances_stay_nonnegative
    ⟨[("USD", 1000)], 1000, "USD", 0, 0, 0⟩
    ⟨"BUY", "EUR", "USD", 50, 1, 0.7, "", "MEDIUM", 0⟩
    (.ok ⟨"EUR/USD", 1.1, 1.1, 1.1, 0, 0, 0, none⟩) 0
    (by rintro x hx; rcases List.mem_singleton.mp hx with rfl; norm_num)
    (by norm_num)
    (by rintro q h; cases h; norm_num)
    ("USD", 1000)
    (by simp [execute_recommendation, hmGet])

/-- C3: a recommendation whose funding currency is absent from the
holdings, or whose funding balance is strictly below the recommendation
amount, is rejected: `execute_recommendation` returns the portfolio with
every field (balances, transaction counter, timestamps) unchanged. -/
theorem C3_insufficient_balance_rejected (p : Portfolio) (r : TradingRecommendation)
    (quote_result : Except Unit ForexQuote) (now : ℕ)
    (h : hmGet p.holdings r.from_currency = none ∨
      ∃ b, hmGet p.holdings r.from_currency = some b ∧ b < r.amount) :
    execute_recommendation p r quote_result now = p := by
  cases quote_result with
  | error e => rfl
  | ok q =>
    rcases h with h | ⟨b, hb, hlt⟩
    · rw [execute_recommendation, h]
    · rw [execute_recommendation, hb]
      dsimp only
      rw [if_neg (not_le.mpr hlt)]

/-- Concrete instantiation of `C3_insufficient_balance_rejected`: the
specification's example — portfolio `{USD: 1000}`, a Buy funded from EUR
(balance absent, i.e. zero) for 50 units — leaves the portfolio record
exactly as it was. -/
theorem C3_insufficient_balance_rejected_witness :
    execute_recommendation ⟨[("USD", 1000)], 1000, "USD", 0, 0, 0⟩
      ⟨"BUY", "EUR", "USD", 50, 1, 0.7, "", "MEDIUM", 0⟩
      (.ok ⟨"EUR/USD", 1.1, 1.1, 1.1, 0, 0, 0, none⟩) 0
      = ⟨[("USD", 1000)], 1000, "USD", 0, 0, 0⟩ :=
  C3_insufficient_balance_rejected _ _ _ _ (Or.inl (by simp [hmGet]))

lemma hmGet_isSome_of_mem_keys {m : List (String × ℚ)} {k : String}
    (h : k ∈ m.map Prod.fst) : (hmGet m k).isSome := by
  induction m with
  | nil => cases h
  | cons a rest ih =>
    obtain ⟨k2, v2⟩ := a
    rw [hmGet]
    split_ifs with hk
    · rfl
    · rcases List.mem_cons.mp h with rfl | hmem
      · exact absurd rfl hk
      · exact ih hmem

lemma hmGet_eq_of_mem_nodup {l : List (String × ℚ)} {p : String} {v : ℚ}
    (hnd : (l.map Prod.fst).Nodup) (h : (p, v) ∈ l) : hmGet l p = some v := by
  induction l with
  | nil => cases h
  | cons a rest ih =>
    obtain ⟨k2, v2⟩ := a
    rw [List.map_cons, List.nodup_cons] at hnd
    rcases List.mem_cons.mp h with heq | hmem
    · cases heq
      rw [hmGet, if_pos rfl]
    · rw [hmGet]
      split_ifs with hk
      · exact absurd (List.mem_map.mpr ⟨(p, v), hmem, by rw [hk]⟩) hnd.1
      · exact ih hnd.2 hmem

lemma detectLoop_mem {f : ℚ → ℚ} {t : ℚ} {old : List (String × ℚ)} {ts : ℕ} :
    ∀ {l : List (String × ℚ)} {rc : RateChange}, rc ∈ detectLoop f t old ts l →
      ∃ nr, (rc.currency_pair, nr) ∈ l ∧ rc.new_rate = nr ∧
        hmGet old rc.currency_pair = some rc.old_rate ∧
        ((rc.old_rate ≠ 0 ∧
            rc.change_percent = (nr - rc.old_rate) / rc.old_rate * 100 ∧
            |rc.change_percent| ≥ t) ∨
          (rc.old_rate = 0 ∧ nr - rc.old_rate ≠ 0)) := by
  intro l
  induction l with
  | nil => intro rc h; cases h
  | cons a rest ih =>
    obtain ⟨pair, nr⟩ := a
    intro rc h
    rw [detectLoop] at h
    rcases List.mem_append.mp h with h | h
    · rcases hg : hmGet old pair with _ | old_rate <;> rw [hg] at h
      · cases h
      · dsimp only at h
        by_cases h0 : old_rate = 0
        · rw [nanDiv, if_pos h0] at h
          dsimp only at h
          split_ifs at h with habs
          · cases h
          · rcases List.mem_singleton.mp h with rfl
            exact ⟨nr, List.mem_cons_self _ _, rfl, hg, Or.inr ⟨h0, habs⟩⟩
        · rw [nanDiv, if_neg h0] at h
          dsimp only at h
          split_ifs at h with hcond
          · rcases List.mem_singleton.mp h with rfl
            exact ⟨nr, List.mem_cons_self _ _, rfl, hg, Or.inl ⟨h0, rfl, hcond⟩⟩
          · cases h
    · obtain ⟨nr2, hmem, hrest⟩ := ih h
      exact ⟨nr2, List.mem_cons_of_mem _ hmem, hrest⟩

lemma mem_detectLoop_of_hmGet {f : ℚ → ℚ} {t : ℚ} {old : List (String × ℚ)} {ts : ℕ} :
    ∀ {l : List (String × ℚ)} {p : String} {nr oldr : ℚ},
      hmGet l p = some nr → hmGet old p = some oldr →
      ((oldr ≠ 0 ∧ |(nr - oldr) / oldr * 100| ≥ t) ∨ (oldr = 0 ∧ nr - oldr ≠ 0)) →
      ∃ rc ∈ detectLoop f t old ts l, rc.currency_pair = p := by
  intro l
  induction l with
  | nil => intro p nr oldr h; cases h
  | cons a rest ih =>
    obtain ⟨k2, v2⟩ := a
    intro p nr oldr hnew hold hcond
    rw [hmGet] at hnew
    rw [detectLoop]
    split_ifs at hnew with hk
    · cases hnew
      subst hk
      rcases hcond with ⟨h0, hge⟩ | ⟨h0, habs⟩
      · refine ⟨{ currency_pair := k2, old_rate := oldr, new_rate := v2,
                  change_percent := (v2 - oldr) / oldr * 100,
                  change_absolute := v2 - oldr, timestamp := ts }, ?_, rfl⟩
        refine List.mem_append.mpr (Or.inl ?_)
        rw [hold]
        dsimp only
        rw [nanDiv, if_neg h0]
        dsimp only
        rw [if_pos hge]
        exact List.mem_singleton.mpr rfl
      · refine ⟨{ currency_pair := k2, old_rate := oldr, new_rate := v2,
                  change_percent := f (v2 - oldr),
                  change_absolute := v2 - oldr, timestamp := ts }, ?_, rfl⟩
        refine List.mem_append.mpr (Or.inl ?_)
        rw [hold]
        dsimp only
        rw [nanDiv, if_pos h0]
        dsimp only
        rw [if_neg habs]
        exact List.mem_singleton.mpr rfl
    · obtain ⟨rc, hmem, hp⟩ := ih hnew hold hcond
      exact ⟨rc, List.mem_append.mpr (Or.inr hmem), hp⟩

/-- C6 (amended): for snapshots whose rate maps carry unique keys, (a) with
a strictly positive threshold, identical rate maps yield no changes; (b) a
pair appears among the reported changes exactly when it is present in both
snapshots and the Rust test `change_percent.abs() >= threshold` succeeds:
for a nonzero old rate, when `|(new − old)/old · 100|` reaches the
threshold, and for a zero old rate, exactly when the new rate differs from
it (the f64 percentage is then ±Inf, whose absolute value compares above
every threshold, while the both-zero case compares NaN and is dropped);
and (c) a pair missing from either snapshot never appears (part (c) needs
no uniqueness hypothesis).  All parts hold for every interpretation of the
non-finite placeholder `infPercent`. -/
theorem C6_detect_changes_characterization (infPercent : ℚ → ℚ)
    (cfg : MonitoringConfig) (oldS newS : RateSnapshot) :
    ((newS.rates.map Prod.fst).Nodup → 0 < cfg.significant_change_threshold →
      oldS.rates = newS.rates →
      detect_significant_changes infPercent cfg oldS newS = []) ∧
    ((newS.rates.map Prod.fst).Nodup → ∀ p : String,
      ((∃ rc ∈ detect_significant_changes infPercent cfg oldS newS,
          rc.currency_pair = p) ↔
        (∃ nr oldr, hmGet newS.rates p = some nr ∧ hmGet oldS.rates p = some oldr ∧
          ((oldr ≠ 0 ∧
              |(nr - oldr) / oldr * 100| ≥ cfg.significant_change_threshold) ∨
            (oldr = 0 ∧ nr - oldr ≠ 0))))) ∧
    (∀ rc ∈ detect_significant_changes infPercent cfg oldS newS,
      (hmGet newS.rates rc.currency_pair).isSome ∧
      (hmGet oldS.rates rc.currency_pair).isSome) := by
  refine ⟨?_, ?_, ?_⟩
  · intro hnd hpos heq
    rw [List.eq_nil_iff_forall_not_mem]
    intro rc hrc
    obtain ⟨nr, hmem, hnr, hold, hdisj⟩ := detectLoop_mem hrc
    rw [heq] at hold
    rw [hmGet_eq_of_mem_nodup hnd hmem] at hold
    cases hold
    rcases hdisj with ⟨h0, hcp, hcond⟩ | ⟨h0, habs⟩
    · rw [hcp, sub_self, zero_div, zero_mul, abs_zero] at hcond
      exact absurd hcond (not_le.mpr hpos)
    · exact habs (sub_self _)
  · intro hnd p
    constructor
    · rintro ⟨rc, hrc, rfl⟩
      obtain ⟨nr, hmem, hnr, hold, hdisj⟩ := detectLoop_mem hrc
      refine ⟨nr, rc.old_rate, hmGet_eq_of_mem_nodup hnd hmem, hold, ?_⟩
      rcases hdisj with ⟨h0, hcp, hcond⟩ | ⟨h0, habs⟩
      · exact Or.inl ⟨h0, by rw [← hcp]; exact hcond⟩
      · exact Or.inr ⟨h0, habs⟩
    · rintro ⟨nr, oldr, hnew, hold, hcond⟩
      exact mem_detectLoop_of_hmGet hnew hold hcond
  · intro rc hrc
    obtain ⟨nr, hmem, hnr, hold, -⟩ := detectLoop_mem hrc
    constructor
    · exact hmGet_isSome_of_mem_keys (List.mem_map.mpr ⟨(rc.currency_pair, nr), hmem, rfl⟩)
    · rw [hold]; rfl

/-- Concrete instantiation of `C6_detect_changes_characterization`: with
the default 0.5% threshold, diffing a snapshot against itself reports
nothing; and a pair whose old rate is 0.0 and whose new rate is 1.0 is
reported (`|Inf| >= 0.5` holds in f64), matching the Rust behaviour at a
zero old rate. -/
theorem C6_detect_changes_characterization_witness :
    (detect_significant_changes (fun _ => 0) ⟨60, 0.5, [], 10, -2, 3⟩
      ⟨0, [("USD/EUR", 1)], "USD"⟩ ⟨0, [("USD/EUR", 1)], "USD"⟩ = []) ∧
    (∃ rc ∈ detect_significant_changes (fun _ => 0) ⟨60, 0.5, [], 10, -2, 3⟩
      ⟨0, [("USD/EUR", 0)], "USD"⟩ ⟨0, [("USD/EUR", 1)], "USD"⟩,
      rc.currency_pair = "USD/EUR") :=
  ⟨(C6_detect_changes_characterization (fun _ => 0) ⟨60, 0.5, [], 10, -2, 3⟩
      ⟨0, [("USD/EUR", 1)], "USD"⟩ ⟨0, [("USD/EUR", 1)], "USD"⟩).1
      (by simp) (by norm_num) rfl,
   ((C6_detect_changes_characterization (fun _ => 0) ⟨60, 0.5, [], 10, -2, 3⟩
      ⟨0, [("USD/EUR", 0)], "USD"⟩ ⟨0, [("USD/EUR", 1)], "USD"⟩).2.1
      (by simp) "USD/EUR").mpr
      ⟨1, 0, by rw [hmGet, if_pos rfl], by rw [hmGet, if_pos rfl],
        Or.inr ⟨rfl, by norm_num⟩⟩⟩

/-- C6 counterexample: the claim as stated quantifies over every
threshold, but with threshold 0 and identical snapshots the code still
reports every common pair (its percentage change 0 satisfies
`|0| ≥ 0`), so the result is not empty. -/
theorem C6_detect_changes_counterexample :
    detect_significant_changes (fun _ => 0) ⟨60, 0, [], 10, -2, 3⟩
      ⟨0, [("USD/EUR", 1)], "USD"⟩ ⟨0, [("USD/EUR", 1)], "USD"⟩ ≠ [] := by
  norm_num [detect_significant_changes, detectLoop, hmGet, nanDiv]

lemma foldl_append_eq_flatMap (f : RateChange → List TradingRecommendation) :
    ∀ (l : List RateChange) (acc : List TradingRecommendation),
      l.foldl (fun recs c => recs ++ f c) acc = acc ++ l.flatMap f := by
  intro l
  induction l with
  | nil => simp
  | cons c t ih => intro acc; simp [ih, List.append_assoc]

lemma recForChange_mem {holdings : List (String × ℚ)} {max_trade : ℚ}
    {analysis : String} {now : ℕ} {c : RateChange} {r : TradingRecommendation}
    (hr : r ∈ recommendationForChange holdings max_trade analysis now c) :
    (c.change_percent ≤ -1 ∨ 1 ≤ c.change_percent) ∧
    (c.change_percent ≤ -1 →
      r.action = "BUY" ∧
      r.from_currency = (splitChar '/' c.currency_pair).getD 1 "" ∧
      r.to_currency = (splitChar '/' c.currency_pair).getD 0 "") ∧
    (1 ≤ c.change_percent →
      r.action = "SELL" ∧
      r.from_currency = (splitChar '/' c.currency_pair).getD 0 "" ∧
      r.to_currency = (splitChar '/' c.currency_pair).getD 1 "") ∧
    (∃ available, hmGet holdings r.from_currency = some available ∧
      r.amount = min available max_trade ∧ 0.01 < r.amount ∧
      r.expected_profit = r.amount * (|c.change_percent| / 100)) := by
  simp only [recommendationForChange] at hr
  by_cases hbuy : c.change_percent ≤ -1
  · rw [if_pos hbuy] at hr
    dsimp only at hr
    rw [if_pos (by decide : ("BUY" : String) ≠ "HOLD"), if_pos rfl] at hr
    dsimp only at hr
    rcases hg : hmGet holdings ((splitChar '/' c.currency_pair).getD 1 "") with _ | avail <;>
      rw [hg] at hr
    · cases hr
    · dsimp only at hr
      split_ifs at hr with hamt
      · rcases List.mem_singleton.mp hr with rfl
        refine ⟨Or.inl hbuy, fun _ => ⟨rfl, rfl, rfl⟩, fun habs => absurd habs (by linarith), ?_⟩
        exact ⟨avail, hg, rfl, hamt, rfl⟩
      · cases hr
  · by_cases hsell : (1 : ℚ) ≤ c.change_percent
    · rw [if_neg hbuy, if_pos hsell] at hr
      dsimp only at hr
      rw [if_pos (by decide : ("SELL" : String) ≠ "HOLD"),
        if_neg (by decide : ¬("SELL" : String) = "BUY")] at hr
      dsimp only at hr
      rcases hg : hmGet holdings ((splitChar '/' c.currency_pair).getD 0 "") with _ | avail <;>
        rw [hg] at hr
      · cases hr
      · dsimp only at hr
        split_ifs at hr with hamt
        · rcases List.mem_singleton.mp hr with rfl
          refine ⟨Or.inr hsell, fun habs => absurd habs hbuy, fun _ => ⟨rfl, rfl, rfl⟩, ?_⟩
          exact ⟨avail, hg, rfl, hamt, rfl⟩
        · cases hr
    · rw [if_neg hbuy, if_neg hsell] at hr
      dsimp only at hr
      rw [if_neg (by simp : ¬("HOLD" : String) ≠ "HOLD")] at hr
      cases hr

lemma recForChange_buy_exists {holdings : List (String × ℚ)} {max_trade : ℚ}
    {analysis : String} {now : ℕ} {c : RateChange} {a : ℚ}
    (hbuy : c.change_percent ≤ -1)
    (hg : hmGet holdings ((splitChar '/' c.currency_pair).getD 1 "") = some a)
    (hamt : min a max_trade > 0.01) :
    ∃ r ∈ recommendationForChange holdings max_trade analysis now c,
      r.action = "BUY" ∧
      r.from_currency = (splitChar '/' c.currency_pair).getD 1 "" ∧
      r.to_currency = (splitChar '/' c.currency_pair).getD 0 "" ∧
      r.amount = min a max_trade ∧
      r.expected_profit = min a max_trade * (|c.change_percent| / 100) := by
  simp only [recommendationForChange]
  rw [if_pos hbuy]
  dsimp only
  rw [if_pos (by decide : ("BUY" : String) ≠ "HOLD"), if_pos rfl]
  dsimp only
  rw [hg]
  dsimp only
  rw [if_pos hamt]
  exact ⟨_, List.mem_singleton.mpr rfl, rfl, rfl, rfl, rfl, rfl⟩

lemma recForChange_sell_exists {holdings : List (String × ℚ)} {max_trade : ℚ}
    {analysis : String} {now : ℕ} {c : RateChange} {a : ℚ}
    (hsell : 1 ≤ c.change_percent)
    (hg : hmGet holdings ((splitChar '/' c.currency_pair).getD 0 "") = some a)
    (hamt : min a max_trade > 0.01) :
    ∃ r ∈ recommendationForChange holdings max_trade analysis now c,
      r.action = "SELL" ∧
      r.from_currency = (splitChar '/' c.currency_pair).getD 0 "" ∧
      r.to_currency = (splitChar '/' c.currency_pair).getD 1 "" ∧
      r.amount = min a max_trade ∧
      r.expected_profit = min a max_trade * (|c.change_percent| / 100) := by
  simp only [recommendationForChange]
  rw [if_neg (by linarith : ¬c.change_percent ≤ -1), if_pos hsell]
  dsimp only
  rw [if_pos (by decide : ("SELL" : String) ≠ "HOLD"),
    if_neg (by decide : ¬("SELL" : String) = "BUY")]
  dsimp only
  rw [hg]
  dsimp only
  rw [if_pos hamt]
  exact ⟨_, List.mem_singleton.mpr rfl, rfl, rfl, rfl, rfl, rfl⟩

/-- C7: (a) every emitted recommendation traces back to a change whose
percentage is not strictly inside (−1, +1): a drop of at least 1% yields a
Buy funded from the pair's quote currency into its base currency, a rise
of at least 1% a Sell from base into quote, the amount is
`min (funding balance) (portfolioValue · maxRiskPerTrade / 100)`, a
recommendation exists only when that amount strictly exceeds 0.01, and the
expected profit is `amount · |change%| / 100`; and (b)/(c) conversely,
every qualifying drop (rise) whose funding balance is available and whose
capped amount clears the 0.01 floor does emit such a Buy (Sell). -/
theorem C7_recommendation_rules (portfolio : Portfolio) (portfolio_value : ℚ)
    (cfg : MonitoringConfig) (analysis : String) (now : ℕ)
    (changes : List RateChange) :
    (∀ r ∈ generate_trading_recommendations portfolio portfolio_value cfg analysis
        now changes,
      ∃ c ∈ changes,
        (c.change_percent ≤ -1 ∨ 1 ≤ c.change_percent) ∧
        (c.change_percent ≤ -1 →
          r.action = "BUY" ∧
          r.from_currency = (splitChar '/' c.currency_pair).getD 1 "" ∧
          r.to_currency = (splitChar '/' c.currency_pair).getD 0 "") ∧
        (1 ≤ c.change_percent →
          r.action = "SELL" ∧
          r.from_currency = (splitChar '/' c.currency_pair).getD 0 "" ∧
          r.to_currency = (splitChar '/' c.currency_pair).getD 1 "") ∧
        (∃ available, hmGet portfolio.holdings r.from_currency = some available ∧
          r.amount = min available (portfolio_value * (cfg.max_risk_per_trade / 100)) ∧
          0.01 < r.amount ∧
          r.expected_profit = r.amount * (|c.change_percent| / 100))) ∧
    (∀ c ∈ changes, ∀ a : ℚ, c.change_percent ≤ -1 →
      hmGet portfolio.holdings ((splitChar '/' c.currency_pair).getD 1 "") = some a →
      min a (portfolio_value * (cfg.max_risk_per_trade / 100)) > 0.01 →
      ∃ r ∈ generate_trading_recommendations portfolio portfolio_value cfg analysis
          now changes,
        r.action = "BUY" ∧
        r.from_currency = (splitChar '/' c.currency_pair).getD 1 "" ∧
        r.to_currency = (splitChar '/' c.currency_pair).getD 0 "" ∧
        r.amount = min a (portfolio_value * (cfg.max_risk_per_trade / 100)) ∧
        r.expected_profit
          = min a (portfolio_value * (cfg.max_risk_per_trade / 100))
            * (|c.change_percent| / 100)) ∧
    (∀ c ∈ changes, ∀ a : ℚ, 1 ≤ c.change_percent →
      hmGet portfolio.holdings ((splitChar '/' c.currency_pair).getD 0 "") = some a →
      min a (portfolio_value * (cfg.max_risk_per_trade / 100)) > 0.01 →
      ∃ r ∈ generate_trading_recommendations portfolio portfolio_value cfg analysis
          now changes,
        r.action = "SELL" ∧
        r.from_currency = (splitChar '/' c.currency_pair).getD 0 "" ∧
        r.to_currency = (splitChar '/' c.currency_pair).getD 1 "" ∧
        r.amount = min a (portfolio_value * (cfg.max_risk_per_trade / 100)) ∧
        r.expected_profit
          = min a (portfolio_value * (cfg.max_risk_per_trade / 100))
            * (|c.change_percent| / 100)) := by
  refine ⟨?_, ?_, ?_⟩
  · intro r hr
    simp only [generate_trading_recommendations] at hr
    rw [foldl_append_eq_flatMap, List.nil_append, List.mem_flatMap] at hr
    obtain ⟨c, hc, hrc⟩ := hr
    exact ⟨c, hc, recForChange_mem hrc⟩
  · intro c hc a hbuy hg hamt
    obtain ⟨r, hr, hprops⟩ := recForChange_buy_exists hbuy hg hamt
    refine ⟨r, ?_, hprops⟩
    simp only [generate_trading_recommendations]
    rw [foldl_append_eq_flatMap, List.nil_append, List.mem_flatMap]
    exact ⟨c, hc, hr⟩
  · intro c hc a hsell hg hamt
    obtain ⟨r, hr, hprops⟩ := recForChange_sell_exists hsell hg hamt
    refine ⟨r, ?_, hprops⟩
    simp only [generate_trading_recommendations]
    rw [foldl_append_eq_flatMap, List.nil_append, List.mem_flatMap]
    exact ⟨c, hc, hr⟩

/-- Concrete instantiation of `C7_recommendation_rules`: the 2% USD/EUR
drop with 1000 EUR held and a 10% risk cap on a portfolio worth 1000
produces a BUY of 100 EUR into USD. -/
theorem C7_recommendation_rules_witness :
    ∃ c ∈ [sampleChange],
      (c.change_percent ≤ -1 ∨ 1 ≤ c.change_percent) ∧
      (c.change_percent ≤ -1 →
        sampleRecommendation.action = "BUY" ∧
        sampleRecommendation.from_currency = (splitChar '/' c.currency_pair).getD 1 "" ∧
        sampleRecommendation.to_currency = (splitChar '/' c.currency_pair).getD 0 "") ∧
      (1 ≤ c.change_percent →
        sampleRecommendation.action = "SELL" ∧
        sampleRecommendation.from_currency = (splitChar '/' c.currency_pair).getD 0 "" ∧
        sampleRecommendation.to_currency = (splitChar '/' c.currency_pair).getD 1 "") ∧
      (∃ available, hmGet samplePortfolio.holdings sampleRecommendation.from_currency
          = some available ∧
        sampleRecommendation.amount = min available (1000 * (10 / 100)) ∧
        0.01 < sampleRecommendation.amount ∧
        sampleRecommendation.expected_profit
          = sampleRecommendation.amount * (|c.change_percent| / 100)) :=
  (C7_recommendation_rules samplePortfolio 1000 sampleConfig "" 0 [sampleChange]).1
    sampleRecommendation
    (by
      have hkey1 : (splitChar '/' "USD/EUR").getD 1 "" = "EUR" := by decide
      have hkey0 : (splitChar '/' "USD/EUR").getD 0 "" = "USD" := by decide
      simp only [generate_trading_recommendations, List.foldl_cons, List.foldl_nil,
        List.nil_append, recommendationForChange, sampleChange, samplePortfolio,
        sampleConfig]
      rw [if_pos (by norm_num : ((-2 : ℚ) ≤ -1))]
      dsimp only
      rw [if_pos (by decide : ("BUY" : String) ≠ "HOLD"), if_pos rfl]
      dsimp only
      rw [hkey1, hkey0]
      rw [show hmGet [("EUR", (1000 : ℚ))] "EUR" = some 1000 by rw [hmGet, if_pos rfl]]
      dsimp only
      rw [if_pos (by norm_num [min_def] : min (1000 : ℚ) (1000 * (10 / 100)) > 0.01)]
      rw [List.mem_singleton, sampleRecommendation]
      norm_num [min_def])

lemma foldl_historyStep (l : List RateSnapshot) :
    ∀ h : List RateSnapshot, h.length ≤ 100 →
      List.foldl historyStep h l = (h ++ l).drop (h.length + l.length - 100) := by
  induction l with
  | nil =>
    intro h hlen
    rw [List.foldl_nil, List.append_nil, List.length_nil,
      Nat.sub_eq_zero_of_le (by omega), List.drop_zero]
  | cons s t ih =>
    intro h hlen
    rw [List.foldl_cons]
    rcases Nat.lt_or_ge h.length 100 with hlt | hge
    · have hstep : historyStep h s = h ++ [s] := by
        rw [historyStep, if_neg (by simp; omega)]
      rw [hstep, ih (h ++ [s]) (by simp; omega)]
      rw [List.append_assoc, List.singleton_append]
      congr 1
      simp
      omega
    · have h100 : h.length = 100 := le_antisymm hlen hge
      have hstep : historyStep h s = (h ++ [s]).drop 1 := by
        rw [historyStep, if_pos (by simp [h100])]
      cases h with
      | nil => simp at h100
      | cons a h2 =>
        have h99 : h2.length = 99 := by simpa using h100
        have hlen2 : (((a :: h2) ++ [s]).drop 1).length = 100 := by simp [h99]
        rw [hstep, ih _ (le_of_eq hlen2), hlen2]
        simp [h99, List.drop_one, List.append_assoc, Nat.add_sub_cancel_left]

/-- C8: starting from the single baseline snapshot, after more than 100
completed monitoring cycles the retained history holds exactly 100
snapshots, namely the 100 most recently appended ones in append order
(the tail of the full append sequence), and whenever the history is full
a step drops exactly the oldest element (FIFO). -/
theorem C8_history_retention (s0 : RateSnapshot) (snaps : List RateSnapshot)
    (h : 100 < snaps.length) :
    (List.foldl historyStep [s0] snaps).length = 100 ∧
    List.foldl historyStep [s0] snaps = (s0 :: snaps).drop (snaps.length + 1 - 100) ∧
    (∀ hist : List RateSnapshot, ∀ s : RateSnapshot, hist.length = 100 →
      historyStep hist s = (hist ++ [s]).drop 1) := by
  have hfold := foldl_historyStep snaps [s0] (by simp)
  rw [List.singleton_append] at hfold
  have hidx : [s0].length + snaps.length - 100 = snaps.length + 1 - 100 := by
    simp
    omega
  rw [hidx] at hfold
  refine ⟨?_, hfold, ?_⟩
  · rw [hfold, List.length_drop, List.length_cons]
    omega
  · intro hist s h100
    rw [historyStep, if_pos (by simp [h100])]

/-- Concrete instantiation of `C8_history_retention`: 101 cycles after the
baseline snapshot leave exactly 100 retained snapshots. -/
theorem C8_history_retention_witness :
    (List.foldl historyStep [⟨0, [], "USD"⟩]
      (List.replicate 101 (⟨0, [], "USD"⟩ : RateSnapshot))).length = 100 :=
  (C8_history_retention ⟨0, [], "USD"⟩ (List.replicate 101 ⟨0, [], "USD"⟩)
    (by simp)).1

end CurrencyAgent
